import Mathlib

/-!
Verification of the VPP resource-platform dashboard logic (`src/App.tsx`):
the display-masking helpers, the per-city aggregation pipeline, and the
fetch / registration fallback policies.

Modelling conventions:
* JS numbers are rationals; `NaN` is modelled by `none` in `Option ℚ`.
* Nullable JS strings are `Option String` (`none` = `null`/`undefined`).
* `x || 0` and `x || ''` (falsy-default) are `jsOr0` / `jsOrEmpty`.
* The JS `Map` (insertion-ordered, keyed by city) is an association list
  upserted in place; `Array.prototype.sort` (stable since ES2019) with the
  numeric comparator `(a, b) => key b - key a` is a stable insertion sort
  descending by `key`.
* The asynchronous remote calls are modelled by their outcome (`FetchResult`,
  `InsertResult`) passed to the handler, and `Math.random().toString()` by an
  arbitrary identifier string.
-/

namespace VPP

/-- JS `x || 0` applied to a number that may be NaN (`none`): NaN, `0` and
`-0` are falsy and give `0`; any other number is returned itself. -/
def jsOr0 : Option ℚ → ℚ
  | none => 0
  | some q => if q = 0 then 0 else q

/-- JS `s || ''` applied to a nullable string: `null`/`undefined` and the
empty string are falsy and give `""`. -/
def jsOrEmpty : Option String → String
  | none => ""
  | some s => if s = "" then "" else s

/-- A raw JSON-ish value as held in the `capacity_mw` column of a fetched
row: a number, `null`, `undefined`/absent, a string that parses as the
number `q`, or a string that does not parse as a number. -/
inductive JVal where
  | vnum (q : ℚ)
  | vnull
  | vundef
  | vstrNum (q : ℚ)
  | vstrBad (s : String)
deriving DecidableEq

/-- JS `Number(·)` coercion on a `JVal`: numbers pass through, `null`
coerces to `0`, `undefined` and non-numeric strings coerce to NaN
(`none`), numeric strings parse. -/
def jsNumber : JVal → Option ℚ
  | .vnum q => some q
  | .vnull => some 0
  | .vundef => none
  | .vstrNum q => some q
  | .vstrBad _ => none

/-- Does the pattern `pat` occur at the head of the second list? -/
def leadEq : List Char → List Char → Bool
  | [], _ => true
  | _ :: _, [] => false
  | a :: as, b :: bs => a == b && leadEq as bs

/-- Does the pattern `pat` occur anywhere in the list? -/
def seqContains (pat : List Char) : List Char → Bool
  | [] => leadEq pat []
  | s@(_ :: rest) => leadEq pat s || seqContains pat rest

/-- JS `s.includes(pat)`: substring containment. -/
def strIncludes (s pat : String) : Bool :=
  seqContains pat.data s.data

/-- JS `s.charAt(0)`: the first character as a string, `""` on `""`. -/
def charAt0 (s : String) : String :=
  match s.data with
  | [] => ""
  | c :: _ => String.mk [c]

/-- `maskName` from `App.tsx`: falsy name gives `""`, otherwise the first
character followed by `"**"`. -/
def maskName (name : String) : String :=
  if name = "" then "" else charAt0 name ++ "**"

/-- One step of the search for the leftmost match of
`/(\d{3})\d{4}(\d{4})/`: at each position, if 11 consecutive digits start
here, replace them by the first 3, `"****"`, and the last 4; otherwise keep
the character and continue right. `none` means no match anywhere. -/
def maskAux : List Char → Option (List Char)
  | [] => none
  | s@(c :: rest) =>
    if (s.take 11).length = 11 && (s.take 11).all Char.isDigit then
      some (s.take 3 ++ ("****").data ++ (s.take 11).drop 7 ++ s.drop 11)
    else
      match maskAux rest with
      | some r => some (c :: r)
      | none => none

/-- `maskPhone` from `App.tsx`: falsy phone gives `""`, otherwise
`phone.replace(/(\d{3})\d{4}(\d{4})/, '$1****$2')` — replace the leftmost
run of 11 digits, or return the string unchanged when there is none. -/
def maskPhone (phone : String) : String :=
  if phone = "" then ""
  else
    match maskAux phone.data with
    | some r => String.mk r
    | none => phone

/-- Is there a run of 11 consecutive digits anywhere in the list? (The
condition under which the `maskPhone` regex finds a match.) -/
def hasElevenDigitRun : List Char → Bool
  | [] => false
  | s@(_ :: rest) =>
    ((s.take 11).length = 11 && (s.take 11).all Char.isDigit) || hasElevenDigitRun rest

/-- A customer record as held in the Application Shell's working set
(`Customer` in `types.ts`, as actually populated by `App.tsx`). -/
structure Customer where
  id : String
  company_name : String
  province : String
  city : String
  capacity_mw : Option ℚ
  demand_type : Option String
  industry : String
  contact : String
  phone : String
deriving DecidableEq

/-- The per-city accumulator of the aggregation `useEffect` (the value
type of `cityMap`). -/
structure CityAgg where
  site_count : ℕ
  pv_mw : ℚ
  storage_mw : ℚ
  ev_mw : ℚ
  other_mw : ℚ
  total_mw : ℚ
deriving DecidableEq

/-- The zero entry installed when a city is first seen. -/
def initAcc : CityAgg :=
  { site_count := 0, pv_mw := 0, storage_mw := 0, ev_mw := 0, other_mw := 0, total_mw := 0 }

/-- The solar marker `"光伏"`. -/
def solarMark : String := "光伏"

/-- The storage marker `"储能"`. -/
def storageMark : String := "储能"

/-- The EV-charging marker `"充电"`. -/
def evMark : String := "充电"

/-- The body of the per-customer loop: increment `site_count`, add the
coerced capacity to `total_mw`, and add it to the first matching category
of the `if`/`else if` chain on `demand_type`. -/
def applyCust (c : Customer) (e : CityAgg) : CityAgg :=
  let cap := jsOr0 c.capacity_mw
  let ty := jsOrEmpty c.demand_type
  let e1 := { e with site_count := e.site_count + 1, total_mw := e.total_mw + cap }
  if strIncludes ty solarMark then { e1 with pv_mw := e1.pv_mw + cap }
  else if strIncludes ty storageMark then { e1 with storage_mw := e1.storage_mw + cap }
  else if strIncludes ty evMark then { e1 with ev_mw := e1.ev_mw + cap }
  else { e1 with other_mw := e1.other_mw + cap }

/-- Upsert one customer into the insertion-ordered city map: update the
entry for its city in place, or append a fresh zero entry (to which the
customer is then applied) at the end. -/
def addToMap (c : Customer) : List (String × CityAgg) → List (String × CityAgg)
  | [] => [(c.city, applyCust c initAcc)]
  | (k, v) :: rest =>
    if k = c.city then (k, applyCust c v) :: rest else (k, v) :: addToMap c rest

/-- The grouping pass: fold every customer into the city map, in input
order, starting from the empty map. -/
def buildMap (customers : List Customer) : List (String × CityAgg) :=
  customers.foldl (fun m c => addToMap c m) []

/-- Lookup of a city key in the association-list model of the map. -/
def lookupCity (x : String) : List (String × CityAgg) → Option CityAgg
  | [] => none
  | (k, v) :: rest => if k = x then some v else lookupCity x rest

/-- The accumulator obtained by running the per-customer loop body over a
list of customers, starting from `a` (used to describe one city's entry). -/
def foldCity (a : CityAgg) (l : List Customer) : CityAgg :=
  l.foldl (fun e c => applyCust c e) a

/-- A per-city row of the statistics table. -/
structure RegionStat where
  city : String
  site_count : ℕ
  pv_mw : ℚ
  storage_mw : ℚ
  ev_mw : ℚ
  other_mw : ℚ
  total_mw : ℚ
deriving DecidableEq

/-- A per-city point of the chart. -/
structure ChartDataPoint where
  name : String
  pv : ℚ
  storage : ℚ
  ev : ℚ
  other : ℚ
deriving DecidableEq

/-- `{ city, ...data }`: one map entry reshaped as a `RegionStat`. -/
def toRegionStat (e : String × CityAgg) : RegionStat :=
  { city := e.1, site_count := e.2.site_count, pv_mw := e.2.pv_mw,
    storage_mw := e.2.storage_mw, ev_mw := e.2.ev_mw,
    other_mw := e.2.other_mw, total_mw := e.2.total_mw }

/-- One map entry reshaped as a `ChartDataPoint` (fields renamed). -/
def toChartPoint (e : String × CityAgg) : ChartDataPoint :=
  { name := e.1, pv := e.2.pv_mw, storage := e.2.storage_mw,
    ev := e.2.ev_mw, other := e.2.other_mw }

/-- The field renaming from a table row to a chart point. -/
def regionToChart (r : RegionStat) : ChartDataPoint :=
  { name := r.city, pv := r.pv_mw, storage := r.storage_mw,
    ev := r.ev_mw, other := r.other_mw }

/-- Insert `x` into a list sorted descending by `key`, before the first
strictly smaller element — the stable behaviour of the JS comparator
`(a, b) => key b - key a`. -/
def insertByDesc (key : α → ℚ) (x : α) : List α → List α
  | [] => [x]
  | y :: ys => if key y < key x then x :: y :: ys else y :: insertByDesc key x ys

/-- Stable sort descending by `key`, the model of
`.sort((a, b) => key b - key a)`. -/
def sortByDesc (key : α → ℚ) (l : List α) : List α :=
  l.foldr (insertByDesc key) []

/-- The aggregation `useEffect` body: empty input resets both outputs to
`[]`; otherwise group by city, then emit the `RegionStat` array sorted
descending by `total_mw` and the `ChartDataPoint` array sorted descending
by the sum of its four category values. -/
def aggregate (customers : List Customer) : List RegionStat × List ChartDataPoint :=
  if customers.length = 0 then ([], [])
  else
    let cityMap := buildMap customers
    (sortByDesc (fun r => r.total_mw) (cityMap.map toRegionStat),
     sortByDesc (fun p => p.pv + p.storage + p.ev + p.other) (cityMap.map toChartPoint))

/-- The `regionStats` state derived from the working set. -/
def regionStats (customers : List Customer) : List RegionStat :=
  (aggregate customers).1

/-- The `chartData` state derived from the working set. -/
def chartData (customers : List Customer) : List ChartDataPoint :=
  (aggregate customers).2

/-! ### Classification as a derived description (spec §4.1 step 2) -/

/-- The four demand categories of the classification chain. -/
inductive Category where
  | pv
  | storage
  | ev
  | other
deriving DecidableEq

/-- The category selected by the source's `if`/`else if` chain: first
match wins among solar, storage, EV-charging; everything else (including
the empty string) is `other`. -/
def classifyType (ty : String) : Category :=
  if strIncludes ty solarMark then .pv
  else if strIncludes ty storageMark then .storage
  else if strIncludes ty evMark then .ev
  else .other

/-- Add the capacity `cap` to exactly the one category sum given by
`cat`, also bumping `site_count` and `total_mw`. -/
def addCategory (cat : Category) (cap : ℚ) (e : CityAgg) : CityAgg :=
  let e1 := { e with site_count := e.site_count + 1, total_mw := e.total_mw + cap }
  match cat with
  | .pv => { e1 with pv_mw := e1.pv_mw + cap }
  | .storage => { e1 with storage_mw := e1.storage_mw + cap }
  | .ev => { e1 with ev_mw := e1.ev_mw + cap }
  | .other => { e1 with other_mw := e1.other_mw + cap }

/-- The sum of the four category sums of an accumulator. -/
def catSum (e : CityAgg) : ℚ :=
  e.pv_mw + e.storage_mw + e.ev_mw + e.other_mw

/-! ### Remote fetch (`fetchCustomers`) -/

/-- A raw row of the `vpp_customers_netlify` collection as returned by
`list()`: the nullable columns are `Option`s and `capacity_mw` is an
arbitrary JSON value. -/
structure RawRecord where
  id : String
  company_name : String
  province : String
  city : String
  capacity_mw : JVal
  demand_type : Option String
  industry : Option String
  contact_name : Option String
  contact_phone : Option String
deriving DecidableEq

/-- The outcome of the awaited `list()` call: an `{ error }` result, a
`{ data }` result whose `data` may be `null`, or a thrown exception. -/
inductive FetchResult where
  | failure (msg : String)
  | success (data : Option (List RawRecord))
  | thrown
deriving DecidableEq

/-- The row-to-`Customer` mapping of `fetchCustomers`: note that
`capacity_mw` is `Number(d.capacity_mw)` with no `|| 0`, so a value that
fails coercion stays NaN (`none`). -/
def mapRaw (d : RawRecord) : Customer :=
  { id := d.id, company_name := d.company_name, province := d.province,
    city := d.city, capacity_mw := jsNumber d.capacity_mw,
    demand_type := d.demand_type, industry := jsOrEmpty d.industry,
    contact := jsOrEmpty d.contact_name, phone := jsOrEmpty d.contact_phone }

/-- `fetchCustomers`: on an error result, a falsy `data`, an empty `data`
or a thrown exception the working set becomes `mock` (the `MOCK_CUSTOMERS`
constant, a parameter here since `constants.ts` is not part of the modelled
source); on non-empty data it becomes the mapped rows. -/
def fetchCustomers (mock : List Customer) : FetchResult → List Customer
  | .failure _ => mock
  | .success none => mock
  | .success (some data) => if data.length > 0 then data.map mapRaw else mock
  | .thrown => mock

/-! ### Registration (`handleNewRegistration` / `updateLocalState`) -/

/-- The registration form payload. `capacity` is the result of
`parseFloat` on the capacity text field (`none` = NaN, i.e. unparseable). -/
structure FormData where
  companyName : String
  province : String
  city : String
  address : String
  capacity : Option ℚ
  demandType : String
  demandTypeOther : String
  industryType : String
  contactName : String
  contactPhone : String
  contactEmail : String
deriving DecidableEq

/-- `data.demandType === '其他' && data.demandTypeOther ? `其他-…` :
data.demandType`. -/
def demandTypeString (d : FormData) : String :=
  if d.demandType = "其他" ∧ d.demandTypeOther ≠ "" then "其他-" ++ d.demandTypeOther
  else d.demandType

/-- The `dbPayload` record built from the form. -/
structure DbPayload where
  company_name : String
  province : String
  city : String
  address : String
  capacity_mw : ℚ
  demand_type : String
  industry : String
  contact_name : String
  contact_phone : String
  contact_email : String
deriving DecidableEq

/-- Building `dbPayload`: capacity is `parseFloat(data.capacity) || 0`. -/
def mkPayload (d : FormData) : DbPayload :=
  { company_name := d.companyName, province := d.province, city := d.city,
    address := d.address, capacity_mw := jsOr0 d.capacity,
    demand_type := demandTypeString d, industry := d.industryType,
    contact_name := d.contactName, contact_phone := d.contactPhone,
    contact_email := d.contactEmail }

/-- The `newCustomer` synthesized by `updateLocalState`; `rid` stands for
the `Math.random().toString()` identifier. -/
def newCustomerOf (rid : String) (p : DbPayload) : Customer :=
  { id := rid, company_name := p.company_name, province := p.province,
    city := p.city, capacity_mw := some p.capacity_mw,
    demand_type := some p.demand_type, industry := p.industry,
    contact := p.contact_name, phone := p.contact_phone }

/-- `updateLocalState`: prepend the synthesized customer to the previous
working set. -/
def updateLocalState (rid : String) (p : DbPayload) (prev : List Customer) : List Customer :=
  newCustomerOf rid p :: prev

/-- The outcome of the awaited `insert()` call. -/
inductive InsertResult where
  | ok
  | err (msg : String)
  | exn
deriving DecidableEq

/-- `handleNewRegistration`, as the customer set it leads to: on a
successful insert the shell refetches (`refetched` is that fetch's
result); on an error result or a thrown exception it falls back to
`updateLocalState` on the previous set. -/
def handleNewRegistration (rid : String) (d : FormData) (res : InsertResult)
    (refetched prev : List Customer) : List Customer :=
  match res with
  | .ok => refetched
  | .err _ => updateLocalState rid (mkPayload d) prev
  | .exn => updateLocalState rid (mkPayload d) prev

/-! ### Concrete records used to instantiate the theorems -/

/-- A demo customer used to instantiate the classification theorems. -/
def demoCust : Customer :=
  { id := "w1", company_name := "示例公司", province := "P", city := "甲",
    capacity_mw := some 12, demand_type := some "光伏", industry := "",
    contact := "张三", phone := "13800138000" }

/-- A customer whose capacity fails numeric coercion. -/
def nanCust : Customer :=
  { id := "w2", company_name := "坏数据公司", province := "P", city := "甲",
    capacity_mw := none, demand_type := some "储能", industry := "",
    contact := "李四", phone := "" }

/-- City `A`, total 10 (spec §8 item 5 example). -/
def exA : Customer :=
  { demoCust with id := "a", city := "A", capacity_mw := some 10 }

/-- City `B`, total 50. -/
def exB : Customer :=
  { demoCust with id := "b", city := "B", capacity_mw := some 50 }

/-- City `C`, total 30. -/
def exC : Customer :=
  { demoCust with id := "c", city := "C", capacity_mw := some 30 }

/-- A 10 MW solar customer in city `甲`. -/
def witCa : Customer :=
  { demoCust with id := "wa", capacity_mw := some 10 }

/-- A 5 MW storage customer in city `甲`. -/
def witCb : Customer :=
  { demoCust with id := "wb", capacity_mw := some 5, demand_type := some "储能" }

/-- The expected single region row for `[witCa, witCb]`. -/
def witR : RegionStat :=
  { city := "甲", site_count := 2, pv_mw := 10, storage_mw := 5,
    ev_mw := 0, other_mw := 0, total_mw := 15 }

/-- A fetched row whose `capacity_mw` is a non-numeric string. -/
def badRaw : RawRecord :=
  { id := "r1", company_name := "甲公司", province := "P", city := "甲",
    capacity_mw := JVal.vstrBad "abc", demand_type := some "光伏",
    industry := none, contact_name := none, contact_phone := none }

/-- A form whose capacity text does not parse as a number. -/
def witForm : FormData :=
  { companyName := "新公司", province := "P", city := "乙", address := "addr",
    capacity := none, demandType := "其他", demandTypeOther := "氢能",
    industryType := "工业", contactName := "王五", contactPhone := "13912345678",
    contactEmail := "a@b.c" }

/-! ### String helper lemmas -/

lemma eq_empty_iff_data_nil (s : String) : s = "" ↔ s.data = [] := by
  constructor
  · intro h; rw [h]
  · intro h
    apply String.ext
    rw [h]

lemma maskAux_eq_none (l : List Char) (h : hasElevenDigitRun l = false) :
    maskAux l = none := by
  induction l with
  | nil => rfl
  | cons c rest ih =>
    rw [hasElevenDigitRun, Bool.or_eq_false_iff] at h
    rw [maskAux, if_neg (by rw [h.1]; simp), ih h.2]

/-! ### Classification lemmas -/

lemma applyCust_eq_addCategory (c : Customer) (e : CityAgg) :
    applyCust c e =
      addCategory (classifyType (jsOrEmpty c.demand_type)) (jsOr0 c.capacity_mw) e := by
  rw [applyCust, classifyType]
  split_ifs <;> rfl

lemma addCategory_site_count (cat : Category) (cap : ℚ) (e : CityAgg) :
    (addCategory cat cap e).site_count = e.site_count + 1 := by
  cases cat <;> rfl

lemma addCategory_total (cat : Category) (cap : ℚ) (e : CityAgg) :
    (addCategory cat cap e).total_mw = e.total_mw + cap := by
  cases cat <;> rfl

lemma addCategory_catSum (cat : Category) (cap : ℚ) (e : CityAgg) :
    catSum (addCategory cat cap e) = catSum e + cap := by
  cases cat <;> simp [addCategory, catSum] <;> ring

lemma applyCust_site_count (c : Customer) (e : CityAgg) :
    (applyCust c e).site_count = e.site_count + 1 := by
  rw [applyCust_eq_addCategory, addCategory_site_count]

lemma applyCust_total (c : Customer) (e : CityAgg) :
    (applyCust c e).total_mw = e.total_mw + jsOr0 c.capacity_mw := by
  rw [applyCust_eq_addCategory, addCategory_total]

lemma applyCust_catSum (c : Customer) (e : CityAgg) :
    catSum (applyCust c e) = catSum e + jsOr0 c.capacity_mw := by
  rw [applyCust_eq_addCategory, addCategory_catSum]

/-! ### Per-city fold lemmas -/

lemma foldCity_cons (a : CityAgg) (c : Customer) (l : List Customer) :
    foldCity a (c :: l) = foldCity (applyCust c a) l := rfl

lemma foldCity_site_count (a : CityAgg) (l : List Customer) :
    (foldCity a l).site_count = a.site_count + l.length := by
  induction l generalizing a with
  | nil => simp [foldCity]
  | cons c l ih =>
    rw [foldCity_cons, ih, applyCust_site_count, List.length_cons]
    omega

lemma foldCity_total (a : CityAgg) (l : List Customer) :
    (foldCity a l).total_mw = a.total_mw + (l.map (fun c => jsOr0 c.capacity_mw)).sum := by
  induction l generalizing a with
  | nil => simp [foldCity]
  | cons c l ih =>
    rw [foldCity_cons, ih, applyCust_total, List.map_cons, List.sum_cons]
    ring

lemma foldCity_catSum (a : CityAgg) (l : List Customer) :
    catSum (foldCity a l) = catSum a + (l.map (fun c => jsOr0 c.capacity_mw)).sum := by
  induction l generalizing a with
  | nil => simp [foldCity]
  | cons c l ih =>
    rw [foldCity_cons, ih, applyCust_catSum, List.map_cons, List.sum_cons]
    ring

/-! ### City-map lemmas -/

lemma lookupCity_addToMap (c : Customer) (x : String) (m : List (String × CityAgg)) :
    lookupCity x (addToMap c m) =
      if x = c.city then some (applyCust c ((lookupCity c.city m).getD initAcc))
      else lookupCity x m := by
  induction m with
  | nil =>
    by_cases h : x = c.city <;> simp [addToMap, lookupCity, h, eq_comm]
  | cons kv rest ih =>
    obtain ⟨k, v⟩ := kv
    rw [addToMap]
    by_cases hk : k = c.city
    · rw [if_pos hk]
      rw [lookupCity, show lookupCity c.city ((k, v) :: rest) = some v from by
        rw [lookupCity, if_pos hk]]
      by_cases hx : x = c.city
      · rw [if_pos (hk.trans hx.symm), if_pos hx]
        rfl
      · have hkx : ¬ k = x := fun he => hx (he.symm.trans hk)
        rw [if_neg hkx, if_neg hx, lookupCity, if_neg hkx]
    · rw [if_neg hk]
      rw [lookupCity, ih, show lookupCity c.city ((k, v) :: rest) = lookupCity c.city rest from by
        rw [lookupCity, if_neg hk]]
      by_cases hx : x = c.city
      · have hkx : ¬ k = x := fun he => hk (he.trans hx)
        rw [if_neg hkx, if_pos hx, if_pos hx]
      · rw [if_neg hx, if_neg hx,
          show lookupCity x ((k, v) :: rest) = if k = x then some v else lookupCity x rest from rfl]

lemma lookupCity_eq_none_iff (x : String) (m : List (String × CityAgg)) :
    lookupCity x m = none ↔ x ∉ m.map Prod.fst := by
  induction m with
  | nil => simp [lookupCity]
  | cons kv rest ih =>
    obtain ⟨k, v⟩ := kv
    by_cases h : k = x
    · simp [lookupCity, h]
    · simp only [lookupCity, if_neg h, List.map_cons, List.mem_cons, ih]
      constructor
      · intro hn hor
        rcases hor with he | hm
        · exact h he.symm
        · exact hn hm
      · intro hn
        exact fun hm => hn (Or.inr hm)

lemma keys_addToMap (c : Customer) (m : List (String × CityAgg)) :
    (addToMap c m).map Prod.fst =
      if lookupCity c.city m = none then m.map Prod.fst ++ [c.city]
      else m.map Prod.fst := by
  induction m with
  | nil => simp [addToMap, lookupCity]
  | cons kv rest ih =>
    obtain ⟨k, v⟩ := kv
    by_cases h : k = c.city
    · subst h
      simp [addToMap, lookupCity]
    · have : ¬ c.city = k := fun he => h he.symm
      simp only [addToMap, if_neg h, List.map_cons, lookupCity, if_neg this, ih]
      split <;> simp

lemma keys_nodup_addToMap (c : Customer) (m : List (String × CityAgg))
    (h : (m.map Prod.fst).Nodup) : ((addToMap c m).map Prod.fst).Nodup := by
  rw [keys_addToMap]
  split
  · rename_i hnone
    have hmem : c.city ∉ m.map Prod.fst := (lookupCity_eq_none_iff _ _).mp hnone
    simp only [List.nodup_append, List.nodup_cons, List.nodup_nil]
    exact ⟨h, by simp, by simpa using hmem⟩
  · exact h

lemma foldl_keys_nodup (l : List Customer) (m : List (String × CityAgg))
    (h : (m.map Prod.fst).Nodup) :
    ((l.foldl (fun m c => addToMap c m) m).map Prod.fst).Nodup := by
  induction l generalizing m with
  | nil => exact h
  | cons c l ih => exact ih _ (keys_nodup_addToMap c m h)

lemma lookupCity_foldl (l : List Customer) (x : String) (m : List (String × CityAgg)) :
    lookupCity x (l.foldl (fun m c => addToMap c m) m) =
      match lookupCity x m with
      | some a => some (foldCity a (l.filter (fun c => c.city = x)))
      | none =>
        if l.filter (fun c => c.city = x) = [] then none
        else some (foldCity initAcc (l.filter (fun c => c.city = x))) := by
  induction l generalizing m with
  | nil => cases h : lookupCity x m <;> simp [foldCity, h]
  | cons c l ih =>
    simp only [List.foldl_cons]
    rw [ih, lookupCity_addToMap]
    by_cases hx : x = c.city
    · subst hx
      rw [if_pos rfl, List.filter_cons_of_pos (by simp)]
      cases h : lookupCity c.city m with
      | some a => simp [h, ← foldCity_cons]
      | none => simp [h, ← foldCity_cons]
    · have hcx : ¬ (c.city = x) := fun he => hx he.symm
      rw [if_neg hx, List.filter_cons_of_neg (by simp [hcx])]

lemma lookupCity_buildMap (l : List Customer) (x : String) :
    lookupCity x (buildMap l) =
      if l.filter (fun c => c.city = x) = [] then none
      else some (foldCity initAcc (l.filter (fun c => c.city = x))) := by
  rw [buildMap, lookupCity_foldl]
  rfl

lemma lookupCity_of_mem (k : String) (a : CityAgg) (m : List (String × CityAgg))
    (hnd : (m.map Prod.fst).Nodup) (hm : (k, a) ∈ m) : lookupCity k m = some a := by
  induction m with
  | nil => simp at hm
  | cons kv rest ih =>
    obtain ⟨k', v⟩ := kv
    simp only [List.map_cons, List.nodup_cons] at hnd
    rcases List.mem_cons.mp hm with h | h
    · rw [← h]
      simp [lookupCity]
    · have hne : k' ≠ k := by
        intro he
        exact hnd.1 (he ▸ List.mem_map_of_mem Prod.fst h)
      simp [lookupCity, hne, ih hnd.2 h]

lemma buildMap_entry (l : List Customer) (k : String) (a : CityAgg)
    (hm : (k, a) ∈ buildMap l) :
    a = foldCity initAcc (l.filter (fun c => c.city = k)) := by
  have hnd : ((buildMap l).map Prod.fst).Nodup := foldl_keys_nodup l [] (by simp)
  have hl := lookupCity_of_mem k a (buildMap l) hnd hm
  rw [lookupCity_buildMap] at hl
  split at hl
  · exact absurd hl (by simp)
  · exact (Option.some_inj.mp hl).symm

lemma siteSum_addToMap (c : Customer) (m : List (String × CityAgg)) :
    ((addToMap c m).map (fun e => e.2.site_count)).sum =
      (m.map (fun e => e.2.site_count)).sum + 1 := by
  induction m with
  | nil => simp [addToMap, applyCust_site_count, initAcc]
  | cons kv rest ih =>
    obtain ⟨k, v⟩ := kv
    by_cases h : k = c.city <;>
      simp [addToMap, h, applyCust_site_count, ih] <;> omega

lemma siteSum_foldl (l : List Customer) (m : List (String × CityAgg)) :
    ((l.foldl (fun m c => addToMap c m) m).map (fun e => e.2.site_count)).sum =
      (m.map (fun e => e.2.site_count)).sum + l.length := by
  induction l generalizing m with
  | nil => simp
  | cons c l ih =>
    rw [List.foldl_cons, ih, siteSum_addToMap, List.length_cons]
    omega

/-! ### Sorting lemmas -/

lemma insertByDesc_perm (key : α → ℚ) (x : α) (l : List α) :
    (insertByDesc key x l).Perm (x :: l) := by
  induction l with
  | nil => exact List.Perm.refl _
  | cons y ys ih =>
    rw [insertByDesc]
    split
    · exact List.Perm.refl _
    · exact (ih.cons y).trans (List.Perm.swap x y ys)

lemma sortByDesc_perm (key : α → ℚ) (l : List α) :
    (sortByDesc key l).Perm l := by
  induction l with
  | nil => exact List.Perm.refl _
  | cons a l ih =>
    exact (insertByDesc_perm key a (sortByDesc key l)).trans (ih.cons a)

lemma mem_insertByDesc (key : α → ℚ) (x z : α) (l : List α) :
    z ∈ insertByDesc key x l ↔ z = x ∨ z ∈ l := by
  rw [(insertByDesc_perm key x l).mem_iff, List.mem_cons]

lemma pairwise_insertByDesc (key : α → ℚ) (x : α) (l : List α)
    (h : l.Pairwise (fun a b => key b ≤ key a)) :
    (insertByDesc key x l).Pairwise (fun a b => key b ≤ key a) := by
  induction l with
  | nil => simp [insertByDesc]
  | cons y ys ih =>
    obtain ⟨h1, h2⟩ := List.pairwise_cons.mp h
    rw [insertByDesc]
    split
    · rename_i hlt
      refine List.pairwise_cons.mpr ⟨?_, h⟩
      intro b hb
      rcases List.mem_cons.mp hb with rfl | hb
      · exact le_of_lt hlt
      · exact le_trans (h1 b hb) (le_of_lt hlt)
    · rename_i hge
      refine List.pairwise_cons.mpr ⟨?_, ih h2⟩
      intro b hb
      rcases (mem_insertByDesc key x b ys).mp hb with rfl | hb
      · exact not_lt.mp hge
      · exact h1 b hb

lemma pairwise_sortByDesc (key : α → ℚ) (l : List α) :
    (sortByDesc key l).Pairwise (fun a b => key b ≤ key a) := by
  induction l with
  | nil => simp [sortByDesc]
  | cons a l ih => exact pairwise_insertByDesc key a _ ih

lemma insertByDesc_map (key : α → ℚ) (key2 : β → ℚ) (f : α → β) (x : α) (l : List α)
    (hx : key2 (f x) = key x) (hl : ∀ y ∈ l, key2 (f y) = key y) :
    insertByDesc key2 (f x) (l.map f) = (insertByDesc key x l).map f := by
  induction l with
  | nil => rfl
  | cons y ys ih =>
    simp only [List.map_cons, insertByDesc]
    rw [hx, hl y (List.mem_cons_self y ys)]
    split
    · simp
    · rw [List.map_cons, ih (fun z hz => hl z (List.mem_cons_of_mem y hz))]

lemma sortByDesc_map (key : α → ℚ) (key2 : β → ℚ) (f : α → β) (l : List α)
    (hl : ∀ y ∈ l, key2 (f y) = key y) :
    sortByDesc key2 (l.map f) = (sortByDesc key l).map f := by
  induction l with
  | nil => rfl
  | cons a l ih =>
    show insertByDesc key2 (f a) (sortByDesc key2 (l.map f)) = _
    rw [ih (fun z hz => hl z (List.mem_cons_of_mem a hz))]
    exact insertByDesc_map key key2 f a _ (hl a (List.mem_cons_self a l))
      (fun z hz => hl z (List.mem_cons_of_mem a ((sortByDesc_perm key l).mem_iff.mp hz)))

lemma aggregate_eq (l : List Customer) :
    aggregate l =
      (sortByDesc (fun r => r.total_mw) ((buildMap l).map toRegionStat),
       sortByDesc (fun p => p.pv + p.storage + p.ev + p.other)
         ((buildMap l).map toChartPoint)) := by
  cases l with
  | nil => rfl
  | cons c l => rw [aggregate, if_neg (by simp)]

/-! ### Masking theorems -/

/-- C3 counterexample: `"123456789012"` is not an 11-digit phone (it has
12 digits), yet `maskPhone` does not return it unchanged. -/
theorem maskPhone_claim_counterexample :
    maskPhone "123456789012" ≠ "123456789012" ∧
      ("123456789012").data.length ≠ 11 ∧
      maskPhone "123456789012" = "123****89012" := by
  refine ⟨by decide, by decide, by decide⟩

/-- C3 (amended): `maskPhone` keeps a falsy (empty) phone as `""`;
it maps a string of exactly 11 digits to its first 3 digits, four
asterisks, and its last 4 digits; and it returns a string containing no
run of 11 consecutive digits unchanged. (A string that is not an 11-digit
phone but does contain 11 consecutive digits has its leftmost such run
partially masked instead of passing through unchanged.) -/
theorem maskPhone_amended (s : String) :
    (s.data.length = 11 → s.data.all Char.isDigit = true →
      maskPhone s = String.mk (s.data.take 3 ++ ("****").data ++ s.data.drop 7)) ∧
    (hasElevenDigitRun s.data = false → maskPhone s = s) := by
  constructor
  · intro hlen hdig
    have hne : s ≠ "" := by
      intro h
      rw [(eq_empty_iff_data_nil s).mp h] at hlen
      simp at hlen
    rw [maskPhone, if_neg hne]
    cases hd : s.data with
    | nil => rw [hd] at hlen; simp at hlen
    | cons c rest =>
      rw [hd] at hlen hdig
      have htake : List.take 11 (c :: rest) = c :: rest := List.take_of_length_le (by omega)
      have hdrop : List.drop 11 (c :: rest) = [] := List.drop_eq_nil_of_le (by omega)
      rw [maskAux]
      simp only [htake, hlen, hdig, hdrop]
      simp
  · intro h
    rw [maskPhone, maskAux_eq_none s.data h]
    split
    · rename_i he; rw [he]
    · rfl

/-- C3 witness: the two amended cases at concrete inputs. -/
theorem maskPhone_amended_witness :
    maskPhone "13800138000" = "138****8000" ∧
      maskPhone "138-0013-8000" = "138-0013-8000" := by
  constructor
  · exact ((maskPhone_amended "13800138000").1 (by decide) (by decide)).trans (by decide)
  · exact (maskPhone_amended "138-0013-8000").2 (by decide)

/-- C10: `maskName` of a name whose first character is `c` is exactly the
one-character string of `c` followed by `"**"`; two non-empty names with
the same first character mask identically (nothing beyond the first
character — in particular the length — is observable); the empty name
masks to the empty string. -/
theorem maskName_first_char_only (c : Char) (rest : List Char) (n1 n2 : String) :
    (n1.data = c :: rest → maskName n1 = String.mk [c] ++ "**") ∧
    (n1 ≠ "" → n2 ≠ "" → n1.data.head? = n2.data.head? → maskName n1 = maskName n2) ∧
    maskName "" = "" := by
  refine ⟨?_, ?_, rfl⟩
  · intro h
    have hne : n1 ≠ "" := by
      intro he
      rw [(eq_empty_iff_data_nil n1).mp he] at h
      exact List.noConfusion h
    rw [maskName, if_neg hne, charAt0, h]
  · intro h1 h2 hhead
    rw [maskName, maskName, if_neg h1, if_neg h2]
    cases hd1 : n1.data with
    | nil => exact absurd ((eq_empty_iff_data_nil n1).mpr hd1) h1
    | cons a as =>
      cases hd2 : n2.data with
      | nil => exact absurd ((eq_empty_iff_data_nil n2).mpr hd2) h2
      | cons b bs =>
        rw [hd1, hd2] at hhead
        simp only [List.head?] at hhead
        rw [charAt0, charAt0, hd1, hd2, Option.some_inj.mp hhead]

/-- C10 witness: `"张三丰"` masks to `"张**"` and masks the same as
`"张三"`. -/
theorem maskName_first_char_only_witness :
    maskName "张三丰" = "张**" ∧ maskName "张三丰" = maskName "张三" := by
  constructor
  · exact ((maskName_first_char_only '张' ['三', '丰'] "张三丰" "张三").1 rfl).trans (by decide)
  · exact (maskName_first_char_only '张' [] "张三丰" "张三").2.1 (by decide) (by decide) (by decide)

/-! ### Classification theorems -/

/-- C2: every customer is classified by substring containment with
first-match priority solar > storage > EV-charging > other, its coerced
capacity being added to exactly one category sum (`addCategory` touches a
single category); any type containing the solar marker — in particular
`"光伏-储能试点"`, which contains the storage marker too — goes to
`pv_mw` only, and a type matching no marker (including the empty string)
goes to `other_mw`. -/
theorem demand_type_classification (c : Customer) (e : CityAgg) :
    applyCust c e =
      addCategory (classifyType (jsOrEmpty c.demand_type)) (jsOr0 c.capacity_mw) e
    ∧ (∀ ty : String, strIncludes ty solarMark = true → classifyType ty = Category.pv)
    ∧ (∀ ty : String, strIncludes ty solarMark = false → strIncludes ty storageMark = false →
        strIncludes ty evMark = false → classifyType ty = Category.other)
    ∧ classifyType "光伏-储能试点" = Category.pv
    ∧ classifyType "" = Category.other := by
  refine ⟨applyCust_eq_addCategory c e, ?_, ?_, by decide, by decide⟩
  · intro ty h
    rw [classifyType, if_pos h]
  · intro ty h1 h2 h3
    rw [classifyType, if_neg (by rw [h1]; simp), if_neg (by rw [h2]; simp),
      if_neg (by rw [h3]; simp)]

/-- C2 witness: the priority rule applied at concrete demand types. -/
theorem demand_type_classification_witness :
    classifyType "光伏储能" = Category.pv ∧ classifyType "风电" = Category.other := by
  constructor
  · exact (demand_type_classification demoCust initAcc).2.1 "光伏储能" (by decide)
  · exact (demand_type_classification demoCust initAcc).2.2.1 "风电"
      (by decide) (by decide) (by decide)

/-- C8: a customer whose `capacity_mw` fails numeric coercion (NaN,
modelled `none`) leaves `total_mw` and all four category sums of its
city's accumulator unchanged (adds 0) but still increments `site_count`
by 1; the step is a total function, so no error is raised. -/
theorem nan_capacity_site_only (c : Customer) (e : CityAgg)
    (h : c.capacity_mw = none) :
    (applyCust c e).site_count = e.site_count + 1 ∧
    (applyCust c e).total_mw = e.total_mw ∧
    (applyCust c e).pv_mw = e.pv_mw ∧
    (applyCust c e).storage_mw = e.storage_mw ∧
    (applyCust c e).ev_mw = e.ev_mw ∧
    (applyCust c e).other_mw = e.other_mw := by
  rw [applyCust_eq_addCategory, h]
  cases classifyType (jsOrEmpty c.demand_type) <;> simp [addCategory, jsOr0]

/-- C8 witness: the NaN-capacity rule at a concrete customer. -/
theorem nan_capacity_site_only_witness :
    (applyCust nanCust initAcc).site_count = initAcc.site_count + 1 ∧
    (applyCust nanCust initAcc).total_mw = initAcc.total_mw ∧
    (applyCust nanCust initAcc).pv_mw = initAcc.pv_mw ∧
    (applyCust nanCust initAcc).storage_mw = initAcc.storage_mw ∧
    (applyCust nanCust initAcc).ev_mw = initAcc.ev_mw ∧
    (applyCust nanCust initAcc).other_mw = initAcc.other_mw :=
  nan_capacity_site_only nanCust initAcc rfl

/-! ### Aggregation invariants -/

/-- C1: the aggregation emits one `RegionStat` per distinct city of the
input (`Nodup` keys covering exactly the input cities); on every emitted
row the four category sums add up to `total_mw`, `total_mw` is the sum of
the coerced capacities of the customers of that city, `site_count` is the
number of customers of that city, and the `site_count`s over all rows sum
to the length of the input. -/
theorem aggregation_invariants (l : List Customer) :
    ((regionStats l).map (fun r => r.city)).Nodup
    ∧ (∀ x : String, x ∈ (regionStats l).map (fun r => r.city) ↔ x ∈ l.map (fun c => c.city))
    ∧ (∀ r ∈ regionStats l, r.pv_mw + r.storage_mw + r.ev_mw + r.other_mw = r.total_mw)
    ∧ (∀ r ∈ regionStats l,
        r.total_mw = ((l.filter (fun c => c.city = r.city)).map (fun c => jsOr0 c.capacity_mw)).sum)
    ∧ (∀ r ∈ regionStats l, r.site_count = (l.filter (fun c => c.city = r.city)).length)
    ∧ ((regionStats l).map (fun r => r.site_count)).sum = l.length := by
  have hreg : regionStats l = sortByDesc (fun r => r.total_mw) ((buildMap l).map toRegionStat) := by
    rw [regionStats, aggregate_eq]
  have hperm : (regionStats l).Perm ((buildMap l).map toRegionStat) := by
    rw [hreg]; exact sortByDesc_perm _ _
  have hentry : ∀ r ∈ regionStats l,
      r = toRegionStat (r.city, foldCity initAcc (l.filter (fun c => c.city = r.city))) := by
    intro r hr
    obtain ⟨⟨k, a⟩, he, hra⟩ := List.mem_map.mp (hperm.mem_iff.mp hr)
    have ha := buildMap_entry l k a he
    have hk : r.city = k := by rw [← hra]; rfl
    rw [hk, ← ha]
    exact hra.symm
  refine ⟨?_, ?_, ?_, ?_, ?_, ?_⟩
  · have : ((regionStats l).map (fun r => r.city)).Perm ((buildMap l).map Prod.fst) := by
      have := hperm.map (fun r => r.city)
      rwa [List.map_map] at this
    exact this.nodup_iff.mpr (foldl_keys_nodup l [] (by simp))
  · intro x
    have hp : ((regionStats l).map (fun r => r.city)).Perm ((buildMap l).map Prod.fst) := by
      have := hperm.map (fun r => r.city)
      rwa [List.map_map] at this
    rw [hp.mem_iff]
    have hlk := lookupCity_buildMap l x
    constructor
    · intro hmemK
      have hnn : lookupCity x (buildMap l) ≠ none :=
        fun hnone => ((lookupCity_eq_none_iff x (buildMap l)).mp hnone) hmemK
      have hf : l.filter (fun c => c.city = x) ≠ [] := by
        intro hnil
        rw [hlk, if_pos hnil] at hnn
        exact hnn rfl
      obtain ⟨c, hc⟩ := List.exists_mem_of_ne_nil _ hf
      have hcl := List.mem_of_mem_filter hc
      have hcx : c.city = x := by simpa using List.of_mem_filter hc
      exact List.mem_map.mpr ⟨c, hcl, hcx⟩
    · intro hx
      obtain ⟨c, hcl, hcx⟩ := List.mem_map.mp hx
      have hf : l.filter (fun c => c.city = x) ≠ [] := by
        intro hnil
        have := List.filter_eq_nil_iff.mp hnil c hcl
        simp [hcx] at this
      have hnn : lookupCity x (buildMap l) ≠ none := by
        rw [hlk, if_neg hf]
        simp
      exact not_not.mp (fun hnot => hnn ((lookupCity_eq_none_iff x (buildMap l)).mpr hnot))
  · intro r hr
    rw [hentry r hr]
    show catSum (foldCity initAcc _) = (foldCity initAcc _).total_mw
    rw [foldCity_catSum, foldCity_total]
    simp [catSum, initAcc]
  · intro r hr
    conv_lhs => rw [hentry r hr]
    show (foldCity initAcc _).total_mw = _
    rw [foldCity_total]
    simp [initAcc]
  · intro r hr
    conv_lhs => rw [hentry r hr]
    show (foldCity initAcc _).site_count = _
    rw [foldCity_site_count]
    simp [initAcc]
  · have hp : ((regionStats l).map (fun r => r.site_count)).Perm
        ((buildMap l).map (fun e => e.2.site_count)) := by
      have := hperm.map (fun r => r.site_count)
      rwa [List.map_map] at this
    rw [hp.sum_eq, buildMap, siteSum_foldl]
    simp

/-- C1 witness: the category-sum invariant on the single region row of a
concrete two-customer input. -/
theorem aggregation_invariants_witness :
    witR.pv_mw + witR.storage_mw + witR.ev_mw + witR.other_mw = witR.total_mw := by
  have hmem : witR ∈ regionStats [witCa, witCb] := by
    have h : regionStats [witCa, witCb] = [witR] := by
      simp [regionStats, aggregate, buildMap, addToMap, applyCust, initAcc, jsOr0,
        jsOrEmpty, sortByDesc, insertByDesc, toRegionStat, witCa, witCb, demoCust,
        strIncludes, seqContains, leadEq, solarMark, storageMark, evMark, witR]
      norm_num
    rw [h]
    exact List.mem_singleton_self witR
  exact (aggregation_invariants [witCa, witCb]).2.2.1 witR hmem

/-- C6: the emitted `RegionStat` array is sorted descending by
`total_mw` — pairwise, hence on every adjacent pair; on the spec's example
(cities `A`, `B`, `C` with totals 10, 50, 30) the output order is
`B`, `C`, `A`. -/
theorem regionStats_sorted_desc (l : List Customer) :
    (regionStats l).Pairwise (fun a b => b.total_mw ≤ a.total_mw)
    ∧ List.Chain' (fun a b => b.total_mw ≤ a.total_mw) (regionStats l)
    ∧ (regionStats [exA, exB, exC]).map (fun r => r.city) = ["B", "C", "A"] := by
  have hpw : (regionStats l).Pairwise (fun a b => b.total_mw ≤ a.total_mw) := by
    rw [regionStats, aggregate_eq]
    exact pairwise_sortByDesc _ _
  refine ⟨hpw, hpw.chain', ?_⟩
  simp [regionStats, aggregate, buildMap, addToMap, applyCust, initAcc, jsOr0,
    jsOrEmpty, sortByDesc, insertByDesc, toRegionStat, exA, exB, exC, demoCust,
    strIncludes, seqContains, leadEq, solarMark, storageMark, evMark]
  norm_num

/-- C7: the chart array is exactly the table array reshaped — same city
sequence (the two separately expressed sort keys coincide because
`total_mw` is the sum of the four category values) and, city by city, the
four category values carried over unchanged. -/
theorem chartData_matches_regionStats (l : List Customer) :
    chartData l = (regionStats l).map regionToChart
    ∧ (chartData l).map (fun p => p.name) = (regionStats l).map (fun r => r.city) := by
  have hmain : chartData l = (regionStats l).map regionToChart := by
    rw [chartData, regionStats, aggregate_eq]
    have hmm : (buildMap l).map toChartPoint =
        ((buildMap l).map toRegionStat).map regionToChart := by
      rw [List.map_map]
      rfl
    rw [hmm]
    apply sortByDesc_map
    intro r hr
    obtain ⟨⟨k, a⟩, he, hra⟩ := List.mem_map.mp hr
    have ha := buildMap_entry l k a he
    rw [← hra]
    show (toRegionStat (k, a)).pv_mw + (toRegionStat (k, a)).storage_mw +
      (toRegionStat (k, a)).ev_mw + (toRegionStat (k, a)).other_mw = _
    show catSum a = a.total_mw
    rw [ha, foldCity_catSum, foldCity_total]
    simp [catSum, initAcc]
  refine ⟨hmain, ?_⟩
  rw [hmain, List.map_map]
  rfl

/-! ### Fetch-fallback theorems -/

/-- C4: whenever `list()` yields an error result, a thrown exception, a
falsy `data`, or an empty `data` array, the resulting customer set is the
mock dataset itself, record for record. -/
theorem fetch_failure_fallback (mock : List Customer) (msg : String) :
    fetchCustomers mock (FetchResult.failure msg) = mock
    ∧ fetchCustomers mock FetchResult.thrown = mock
    ∧ fetchCustomers mock (FetchResult.success none) = mock
    ∧ fetchCustomers mock (FetchResult.success (some [])) = mock := by
  exact ⟨rfl, rfl, rfl, rfl⟩

/-- C5: whenever `insert()` yields an error result or a thrown exception,
the new customer set is exactly one synthesized customer — carrying the
generated identifier and the submitted form fields — prepended to the
previous set, which is left intact and in order. -/
theorem insert_failure_prepends_local (rid msg : String) (d : FormData)
    (refetched prev : List Customer) :
    handleNewRegistration rid d (InsertResult.err msg) refetched prev =
      newCustomerOf rid (mkPayload d) :: prev
    ∧ handleNewRegistration rid d InsertResult.exn refetched prev =
      newCustomerOf rid (mkPayload d) :: prev
    ∧ (newCustomerOf rid (mkPayload d)).id = rid
    ∧ (newCustomerOf rid (mkPayload d)).company_name = d.companyName
    ∧ (newCustomerOf rid (mkPayload d)).province = d.province
    ∧ (newCustomerOf rid (mkPayload d)).city = d.city
    ∧ (newCustomerOf rid (mkPayload d)).capacity_mw = some (jsOr0 d.capacity)
    ∧ (newCustomerOf rid (mkPayload d)).demand_type = some (demandTypeString d)
    ∧ (newCustomerOf rid (mkPayload d)).industry = d.industryType
    ∧ (newCustomerOf rid (mkPayload d)).contact = d.contactName
    ∧ (newCustomerOf rid (mkPayload d)).phone = d.contactPhone := by
  exact ⟨rfl, rfl, rfl, rfl, rfl, rfl, rfl, rfl, rfl, rfl, rfl⟩

/-- C9 counterexample: a successful fetch of a row whose `capacity_mw` is
the non-numeric string `"abc"` puts a customer with NaN (`none`) capacity
into the working set — no `0` is substituted on the fetch path. -/
theorem fetched_capacity_nan_counterexample :
    ¬ (∀ c ∈ fetchCustomers [] (FetchResult.success (some [badRaw])), c.capacity_mw ≠ none) := by
  intro h
  exact h (mapRaw badRaw) (by rw [show fetchCustomers [] (FetchResult.success (some [badRaw])) =
    [mapRaw badRaw] from rfl]; exact List.mem_singleton_self _) rfl

/-- C9 (amended): a customer created from a registration submission always
carries a real (non-NaN) capacity, `0` substituted when the form value is
absent or unparseable; a customer mapped from a successful fetch carries
the bare `Number(·)` coercion of the raw value, which is NaN exactly when
that coercion fails. -/
theorem capacity_coercion_amended (rid : String) (d : FormData) (r : RawRecord) :
    (newCustomerOf rid (mkPayload d)).capacity_mw = some (jsOr0 d.capacity)
    ∧ (d.capacity = none → (newCustomerOf rid (mkPayload d)).capacity_mw = some 0)
    ∧ ((mapRaw r).capacity_mw = none ↔ jsNumber r.capacity_mw = none) := by
  refine ⟨rfl, ?_, Iff.rfl⟩
  intro h
  simp [newCustomerOf, mkPayload, jsOr0, h]

/-- C9 witness: the registration default at a concrete unparseable form
capacity. -/
theorem capacity_coercion_amended_witness :
    (newCustomerOf "wid" (mkPayload witForm)).capacity_mw = some 0 :=
  (capacity_coercion_amended "wid" witForm badRaw).2.1 rfl

end VPP
